import Mathlib

/-!
Verification development for the `rust-etcd3` client library (`src/lib.rs`).

The source is an async Rust gRPC client.  We shallow-embed it as follows:

* Rust `String` / `&str` values and protobuf `bytes` fields are byte
  sequences, modelled as `List Nat` (a Rust `String` is exactly its UTF-8
  byte buffer, and `to_string().into_bytes()` is the identity on those
  bytes).
* The prost-generated request/response message types become Lean
  structures whose fields carry the proto3 defaults, so that Rust's
  `..Default::default()` is the structure literal with omitted fields.
* Each network call site (`self.client.kv_client.put(...)` etc.) becomes
  an explicit oracle argument mapping the stub's channel and the built
  request to the transport's answer, an `Except` value as in the Rust
  `Result` returned by tonic.
* `std::str::from_utf8` becomes a validator over byte lists returning
  `Option`; `.unwrap()` on its failure becomes the `panic` outcome of
  `ExecResult`.
* `HashMap::insert` becomes replace-or-append insertion on an
  association list of byte strings.
-/

namespace Etcd3

/-- Byte sequences: protobuf `bytes`, and the UTF-8 buffer of a Rust string. -/
abbrev Bytes := List Nat

/-- Transport / server failure token (tonic `Status` and transport errors). -/
structure GrpcError where
  code : Nat
deriving DecidableEq

/-- Outcome of running a fallible Rust function that may also `panic`
(via `.unwrap()`): either the `Ok` value, a returned `Err`, or a panic. -/
inductive ExecResult (ε : Type) (α : Type) where
  | ok (a : α)
  | error (e : ε)
  | panic
deriving DecidableEq

/-- Check whether an `ExecResult` is a returned error (not a panic, not ok). -/
def ExecResult.isError {ε α : Type} : ExecResult ε α → Bool
  | .error _ => true
  | _ => false

/-- Check whether an `ExecResult` is a successful return. -/
def ExecResult.isOk {ε α : Type} : ExecResult ε α → Bool
  | .ok _ => true
  | _ => false

/-! ## UTF-8 validation (`std::str::from_utf8`)

Rust's `from_utf8` accepts exactly the well-formed UTF-8 byte sequences:
no bytes above `0xF4`, no overlong encodings (hence the `0xC2` lower bound
and the tightened ranges after `0xE0`/`0xF0`), no surrogate code points
(the `0xED` bound) and no code points above `0x10FFFF` (the `0xF4` bound).
-/

/-- Decide whether a byte sequence is well-formed UTF-8, following the
validation performed by Rust's `std::str::from_utf8`. -/
def validUtf8 : List Nat → Bool
  | [] => true
  | b :: rest =>
    if b < 0x80 then validUtf8 rest
    else if b < 0xC2 then false
    else if b < 0xE0 then
      match rest with
      | b1 :: rest2 =>
        if 0x80 ≤ b1 && b1 < 0xC0 then validUtf8 rest2 else false
      | [] => false
    else if b < 0xF0 then
      match rest with
      | b1 :: b2 :: rest2 =>
        if (if b = 0xE0 then 0xA0 else 0x80) ≤ b1 &&
            b1 < (if b = 0xED then 0xA0 else 0xC0) &&
            0x80 ≤ b2 && b2 < 0xC0 then validUtf8 rest2 else false
      | _ => false
    else if b < 0xF5 then
      match rest with
      | b1 :: b2 :: b3 :: rest2 =>
        if (if b = 0xF0 then 0x90 else 0x80) ≤ b1 &&
            b1 < (if b = 0xF4 then 0x90 else 0xC0) &&
            0x80 ≤ b2 && b2 < 0xC0 &&
            0x80 ≤ b3 && b3 < 0xC0 then validUtf8 rest2 else false
      | _ => false
    else false

/-- Model of `std::str::from_utf8`: returns the string (its byte buffer,
unchanged) when the bytes are valid UTF-8, and `none` (a `Utf8Error`)
otherwise. -/
def from_utf8 (b : Bytes) : Option Bytes :=
  if validUtf8 b then some b else none

/-! ## Protobuf message model (prost-generated types used by `lib.rs`)

Field defaults are the proto3 defaults prost generates for
`Default::default()`: empty bytes, `0` numbers, `false` bools, empty
repeated fields, `None` messages.
-/

/-- Response header common to etcd responses (`etcdserverpb.ResponseHeader`). -/
structure ResponseHeader where
  cluster_id : Nat := 0
  member_id : Nat := 0
  revision : Int := 0
  raft_term : Nat := 0
deriving DecidableEq

/-- Key-value record (`mvccpb.KeyValue`). -/
structure KeyValue where
  key : Bytes := []
  create_revision : Int := 0
  mod_revision : Int := 0
  version : Int := 0
  value : Bytes := []
  lease : Int := 0
deriving DecidableEq

/-- Range read request (`etcdserverpb.RangeRequest`). -/
structure RangeRequest where
  key : Bytes := []
  range_end : Bytes := []
  limit : Int := 0
  revision : Int := 0
  sort_order : Int := 0
  sort_target : Int := 0
  serializable : Bool := false
  keys_only : Bool := false
  count_only : Bool := false
  min_mod_revision : Int := 0
  max_mod_revision : Int := 0
  min_create_revision : Int := 0
  max_create_revision : Int := 0
deriving DecidableEq

/-- Range read response (`etcdserverpb.RangeResponse`). -/
structure RangeResponse where
  header : Option ResponseHeader := none
  kvs : List KeyValue := []
  more : Bool := false
  count : Int := 0
deriving DecidableEq

/-- Write request (`etcdserverpb.PutRequest`). -/
structure PutRequest where
  key : Bytes := []
  value : Bytes := []
  lease : Int := 0
  prev_kv : Bool := false
  ignore_value : Bool := false
  ignore_lease : Bool := false
deriving DecidableEq

/-- Write response (`etcdserverpb.PutResponse`). -/
structure PutResponse where
  header : Option ResponseHeader := none
  prev_kv : Option KeyValue := none
deriving DecidableEq

/-- Delete request (`etcdserverpb.DeleteRangeRequest`). -/
structure DeleteRangeRequest where
  key : Bytes := []
  range_end : Bytes := []
  prev_kv : Bool := false
deriving DecidableEq

/-- Delete response (`etcdserverpb.DeleteRangeResponse`). -/
structure DeleteRangeResponse where
  header : Option ResponseHeader := none
  deleted : Int := 0
  prev_kvs : List KeyValue := []
deriving DecidableEq

/-- Watch creation request (`etcdserverpb.WatchCreateRequest`). -/
structure WatchCreateRequest where
  key : Bytes := []
  range_end : Bytes := []
  start_revision : Int := 0
  progress_notify : Bool := false
  filters : List Int := []
  prev_kv : Bool := false
  watch_id : Int := 0
  fragment : Bool := false
deriving DecidableEq

/-- Watch cancellation request (`etcdserverpb.WatchCancelRequest`). -/
structure WatchCancelRequest where
  watch_id : Int := 0
deriving DecidableEq

/-- Watch progress request (`etcdserverpb.WatchProgressRequest`). -/
structure WatchProgressRequest where
deriving DecidableEq

/-- The `oneof request_union` of `etcdserverpb.WatchRequest`
(prost module `watch_request::RequestUnion`). -/
inductive RequestUnion where
  | CreateRequest (r : WatchCreateRequest)
  | CancelRequest (r : WatchCancelRequest)
  | ProgressRequest (r : WatchProgressRequest)
deriving DecidableEq

/-- Watch request envelope (`etcdserverpb.WatchRequest`). -/
structure WatchRequest where
  request_union : Option RequestUnion := none
deriving DecidableEq

/-! ## Session model

`EtcdClient<Channel>` holds six tonic service stubs.  A stub is modelled
by the identifier of the channel it owns.

Modelled from the spec: the per-service stub constructor
`client::XClient::connect(dst)` is tonic-generated code that is part of
this repository's build but not under `src/`; per the spec's transport
contract ("Transport endpoint (external): resolves a destination address
into a connected channel") each invocation resolves the destination and
opens its own connected channel.  We model the network by a counter `n`
of channels opened so far, together with a dial oracle giving the outcome
of each successive dial attempt; a successful dial yields a stub over the
fresh channel `n`.
-/

/-- A tonic service stub: it wraps the channel it was constructed over. -/
structure GrpcClient where
  channel : Nat
deriving DecidableEq

/-- Dial oracle: the outcome of the `i`-th dial attempt against the
destination (success, or a connection error). -/
abbrev Dial := Nat → Except GrpcError Unit

/-- Modelled from the spec: tonic-generated `client::XClient::connect(dst)`
(code of this repository generated at build time, not under `src/`).
It resolves the destination into a connected channel and wraps a stub
around it; on failure the error is returned and no stub is produced.
`n` is the number of channels opened so far, so a successful dial opens
fresh channel `n`. -/
def GrpcClient.connect (dial : Dial) (n : Nat) : Except GrpcError (GrpcClient × Nat) :=
  match dial n with
  | .ok _ => .ok (⟨n⟩, n + 1)
  | .error e => .error e

/-- The session (`EtcdClient<Channel>`): one stub per service. -/
structure EtcdClient where
  auth_client : GrpcClient
  cluster_client : GrpcClient
  kv_client : GrpcClient
  lease_client : GrpcClient
  status_client : GrpcClient
  watch_client : GrpcClient
deriving DecidableEq

/-- Model of `EtcdClient::connect` (`src/lib.rs:114`): six sequential
per-service stub connects against the same destination, each `?`-propagating
its error; on success the session is assembled from all six stubs. -/
def EtcdClient.connect (dial : Dial) (n : Nat) : Except GrpcError (EtcdClient × Nat) :=
  match GrpcClient.connect dial n with
  | .error e => .error e
  | .ok (auth_client, n1) =>
    match GrpcClient.connect dial n1 with
    | .error e => .error e
    | .ok (cluster_client, n2) =>
      match GrpcClient.connect dial n2 with
      | .error e => .error e
      | .ok (kv_client, n3) =>
        match GrpcClient.connect dial n3 with
        | .error e => .error e
        | .ok (lease_client, n4) =>
          match GrpcClient.connect dial n4 with
          | .error e => .error e
          | .ok (status_client, n5) =>
            match GrpcClient.connect dial n5 with
            | .error e => .error e
            | .ok (watch_client, n6) =>
              .ok (⟨auth_client, cluster_client, kv_client,
                    lease_client, status_client, watch_client⟩, n6)

/-! ## Range and Cluster handles -/

/-- A `Range` handle (`src/lib.rs:27`): start key, optional end key, and
the borrowed session (`&'a mut EtcdClient`, modelled by the session value
it points at). -/
structure Range where
  start : Bytes
  end_ : Option Bytes
  client : EtcdClient
deriving DecidableEq

/-- A `Cluster` handle (`src/lib.rs:88`): just the borrowed session. -/
structure Cluster where
  client : EtcdClient
deriving DecidableEq

/-- Model of `EtcdClient::range` (`src/lib.rs:136`): pure constructor of a
`Range` handle from the scope parameters and the borrowed session; no
oracle argument because the source performs no call. -/
def EtcdClient.range (client : EtcdClient) (start : Bytes) (end_ : Option Bytes) : Range :=
  { start := start, end_ := end_, client := client }

/-- Model of `EtcdClient::cluster` (`src/lib.rs:195`): pure constructor of
a `Cluster` handle from the borrowed session. -/
def EtcdClient.cluster (client : EtcdClient) : Cluster :=
  { client := client }

/-! ## Range operations -/

/-- The `PutRequest` built by `Range::put` (`src/lib.rs:37`): start key,
given value, `prev_kv: true`, remaining fields defaulted. -/
def Range.putRequest (r : Range) (value : Bytes) : PutRequest :=
  { key := r.start, value := value, prev_kv := true }

/-- Model of `Range::put` (`src/lib.rs:34`): build the request, send it via
the session's kv stub (the `kv_put` oracle), propagate a transport error,
and discard the response. -/
def Range.put (r : Range) (value : Bytes)
    (kv_put : Nat → PutRequest → Except GrpcError PutResponse) :
    Except GrpcError Unit :=
  match kv_put r.client.kv_client.channel (r.putRequest value) with
  | .error e => .error e
  | .ok _response => .ok ()

/-- The `RangeRequest` built by `Range::get` (`src/lib.rs:50`): start key
as `key`; `range_end` is the bound end key's bytes, or the empty byte
sequence when no end key is bound; remaining fields defaulted. -/
def Range.getRequest (r : Range) : RangeRequest :=
  { key := r.start,
    range_end :=
      match r.end_ with
      | some s => s
      | none => [] }

/-- Model of `HashMap::insert` on an association list: replace the entry
with this key when present, otherwise add the new entry. -/
def insertKV : List (Bytes × Bytes) → Bytes → Bytes → List (Bytes × Bytes)
  | [], k, v => [(k, v)]
  | p :: rest, k, v => if p.1 = k then (k, v) :: rest else p :: insertKV rest k v

/-- Model of `HashMap` lookup on an association list. -/
def lookupKV : List (Bytes × Bytes) → Bytes → Option Bytes
  | [], _ => none
  | p :: rest, k => if p.1 = k then some p.2 else lookupKV rest k

/-- The record-collection loop of `Range::get` (`src/lib.rs:61`): walk the
returned records in order, decode key and value with
`from_utf8(..).unwrap()` (panicking on the first undecodable byte
sequence) and insert each decoded pair into the map. -/
def decodeKvs : List (Bytes × Bytes) → List KeyValue → ExecResult GrpcError (List (Bytes × Bytes))
  | out, [] => .ok out
  | out, kv :: rest =>
    match from_utf8 kv.key with
    | none => .panic
    | some key =>
      match from_utf8 kv.value with
      | none => .panic
      | some value => decodeKvs (insertKV out key value) rest

/-- Model of `Range::get` (`src/lib.rs:49`): build the request, send it via
the session's kv stub (the `kv_range` oracle), propagate a transport
error, then collect the returned records into a map (panicking on
undecodable bytes, as the source's `.unwrap()` does). -/
def Range.get (r : Range)
    (kv_range : Nat → RangeRequest → Except GrpcError RangeResponse) :
    ExecResult GrpcError (List (Bytes × Bytes)) :=
  match kv_range r.client.kv_client.channel r.getRequest with
  | .error e => .error e
  | .ok response => decodeKvs [] response.kvs

/-- The `DeleteRangeRequest` built by `Range::delete` (`src/lib.rs:73`):
start key as `key`; `range_end` is the bound end key's bytes, or the empty
byte sequence when no end key is bound; remaining fields defaulted. -/
def Range.deleteRequest (r : Range) : DeleteRangeRequest :=
  { key := r.start,
    range_end :=
      match r.end_ with
      | some s => s
      | none => [] }

/-- Model of `Range::delete` (`src/lib.rs:72`): build the request, send it
via the session's kv stub, propagate a transport error, and discard the
response.  In the source this method takes `self` by value, so the Rust
type system forbids any further operation through the handle afterwards. -/
def Range.delete (r : Range)
    (kv_delete : Nat → DeleteRangeRequest → Except GrpcError DeleteRangeResponse) :
    Except GrpcError Unit :=
  match kv_delete r.client.kv_client.channel r.deleteRequest with
  | .error e => .error e
  | .ok _response => .ok ()

/-! ## Watch -/

/-- The outbound request stream built by `EtcdClient::watch`
(`src/lib.rs:155`): the `async_stream::stream!` block yields a single
`WatchRequest` wrapping a `WatchCreateRequest` for the key (all other
fields defaulted) and then completes, so the produced sequence is exactly
that one-element list. -/
def EtcdClient.watchRequestStream (key : Bytes) : List WatchRequest :=
  let watch_create_req : WatchCreateRequest := { key := key }
  let request_union : RequestUnion := RequestUnion.CreateRequest watch_create_req
  let request : WatchRequest := { request_union := some request_union }
  [request]

/-- Model of `EtcdClient::watch` (`src/lib.rs:148`): hand the one-shot
request stream to the watch stub (the `watch_call` oracle over the watch
stub's channel) and return the inbound stream it produces. -/
def EtcdClient.watch {σ : Type} (c : EtcdClient) (key : Bytes)
    (watch_call : Nat → List WatchRequest → Except GrpcError σ) :
    Except GrpcError σ :=
  watch_call c.watch_client.channel (EtcdClient.watchRequestStream key)

/-! ## Concrete fixtures used by witnesses and counterexamples -/

/-- A session over channels 0..5, the result of a fully successful connect
starting from a fresh network. -/
def connectedSix : EtcdClient := ⟨⟨0⟩, ⟨1⟩, ⟨2⟩, ⟨3⟩, ⟨4⟩, ⟨5⟩⟩

/-- Dial oracle on which every dial attempt succeeds. -/
def dialAllOk : Dial := fun _ => .ok ()

/-- A concrete range handle over start key "foo" with no end key. -/
def sampleRange : Range := EtcdClient.range connectedSix [102, 111, 111] none

/-- A range response holding one record whose key byte 255 is not valid
UTF-8. -/
def badUtf8Response : RangeResponse := { kvs := [{ key := [255], value := [97] }] }

/-- A kv stub answering every range read with `badUtf8Response`. -/
def badUtf8Server : Nat → RangeRequest → Except GrpcError RangeResponse :=
  fun _ _ => .ok badUtf8Response

/-- A kv stub answering every put with the default (empty) response. -/
def okPutServer : Nat → PutRequest → Except GrpcError PutResponse :=
  fun _ _ => .ok {}

/-- A kv stub answering every range read with the default (empty) response. -/
def emptyServer : Nat → RangeRequest → Except GrpcError RangeResponse :=
  fun _ _ => .ok {}

/-! ## Supporting lemmas -/

/-- Record-collection panics whenever some returned record's key or value
fails UTF-8 validation (the `.unwrap()` on `from_utf8`). -/
lemma decodeKvs_panic :
    ∀ (kvs : List KeyValue) (out : List (Bytes × Bytes)),
      (∃ kv ∈ kvs, validUtf8 kv.key = false ∨ validUtf8 kv.value = false) →
      decodeKvs out kvs = ExecResult.panic := by
  intro kvs
  induction kvs with
  | nil =>
    intro out h
    rcases h with ⟨kv, hmem, _⟩
    simp at hmem
  | cons kv rest ih =>
    intro out h
    rcases h with ⟨kv2, hmem, hbad⟩
    rcases List.mem_cons.mp hmem with heq | hmem2
    · subst heq
      rcases hbad with hk | hv
      · simp [decodeKvs, from_utf8, hk]
      · by_cases hk2 : validUtf8 kv2.key
        · simp [decodeKvs, from_utf8, hk2, hv]
        · simp [decodeKvs, from_utf8, hk2]
    · by_cases hk2 : validUtf8 kv.key
      · by_cases hv2 : validUtf8 kv.value
        · simpa [decodeKvs, from_utf8, hk2, hv2] using
            ih (insertKV out kv.key kv.value) ⟨kv2, hmem2, hbad⟩
        · simp [decodeKvs, from_utf8, hk2, hv2]
      · simp [decodeKvs, from_utf8, hk2]

/-- Dial oracle whose third dial attempt fails and all others succeed. -/
def dialFailThird : Dial := fun i => if i = 2 then .error ⟨7⟩ else .ok ()

/-- A range response carrying the key "a" twice, the second record's value
being the undecodable byte 255. -/
def dupBadResponse : RangeResponse :=
  { kvs := [ { key := [97], value := [120] }, { key := [97], value := [255] } ] }

/-- A kv stub answering every range read with `dupBadResponse`. -/
def dupBadServer : Nat → RangeRequest → Except GrpcError RangeResponse :=
  fun _ _ => .ok dupBadResponse

/-- A range response binding "a" to "x", then "a" to "y", then "b" to "z";
all records decode as text. -/
def dupValidResponse : RangeResponse :=
  { kvs := [ { key := [97], value := [120] },
             { key := [97], value := [121] },
             { key := [98], value := [122] } ] }

/-- A kv stub answering every range read with `dupValidResponse`. -/
def dupValidServer : Nat → RangeRequest → Except GrpcError RangeResponse :=
  fun _ _ => .ok dupValidResponse

/-- Characterization of a successful `EtcdClient::connect`: all six dials
succeeded, the six stubs sit on the six fresh channels `n`..`n + 5`, and
six connections were opened. -/
lemma connect_ok_elim (dial : Dial) (n : Nat) (c : EtcdClient) (n' : Nat)
    (h : EtcdClient.connect dial n = .ok (c, n')) :
    (∀ i, i < 6 → dial (n + i) = .ok ()) ∧
    c = ⟨⟨n⟩, ⟨n + 1⟩, ⟨n + 2⟩, ⟨n + 3⟩, ⟨n + 4⟩, ⟨n + 5⟩⟩ ∧
    n' = n + 6 := by
  cases h0 : dial n with
  | error e => simp [EtcdClient.connect, GrpcClient.connect, h0] at h
  | ok u0 =>
  cases h1 : dial (n + 1) with
  | error e => simp [EtcdClient.connect, GrpcClient.connect, h0, h1] at h
  | ok u1 =>
  cases h2 : dial (n + 1 + 1) with
  | error e => simp [EtcdClient.connect, GrpcClient.connect, h0, h1, h2] at h
  | ok u2 =>
  cases h3 : dial (n + 1 + 1 + 1) with
  | error e => simp [EtcdClient.connect, GrpcClient.connect, h0, h1, h2, h3] at h
  | ok u3 =>
  cases h4 : dial (n + 1 + 1 + 1 + 1) with
  | error e => simp [EtcdClient.connect, GrpcClient.connect, h0, h1, h2, h3, h4] at h
  | ok u4 =>
  cases h5 : dial (n + 1 + 1 + 1 + 1 + 1) with
  | error e => simp [EtcdClient.connect, GrpcClient.connect, h0, h1, h2, h3, h4, h5] at h
  | ok u5 =>
  simp [EtcdClient.connect, GrpcClient.connect, h0, h1, h2, h3, h4, h5] at h
  obtain ⟨hc, hn⟩ := h
  refine ⟨?_, ?_, ?_⟩
  · intro i hi
    interval_cases i
    · exact h0
    · exact h1
    · exact h2
    · exact h3
    · exact h4
    · exact h5
  · exact hc.symm
  · exact hn.symm

/-- Lookup after insertion: the inserted key maps to the new value and
every other key is untouched. -/
lemma lookup_insertKV :
    ∀ (m : List (Bytes × Bytes)) (k v k' : Bytes),
      lookupKV (insertKV m k v) k' = if k = k' then some v else lookupKV m k' := by
  intro m
  induction m with
  | nil => intro k v k'; simp [insertKV, lookupKV]
  | cons p rest ih =>
    intro k v k'
    by_cases hp : p.1 = k
    · by_cases hk : k = k'
      · simp [insertKV, hp, lookupKV, hk]
      · have hp' : p.1 ≠ k' := by rw [hp]; exact hk
        simp [insertKV, hp, lookupKV, hk, hp']
    · by_cases h1 : p.1 = k' <;> by_cases h2 : k = k'
      · exact absurd (h1.trans h2.symm) hp
      · have h3 : ¬ k' = k := fun he => hp (h1.trans he)
        simp [insertKV, hp, lookupKV, h1, h2, h3]
      · simp [insertKV, hp, lookupKV, h1, h2, ih]
      · simp [insertKV, hp, lookupKV, h1, h2, ih]

/-- Insertion grows the map by at most one entry. -/
lemma insertKV_length_le :
    ∀ (m : List (Bytes × Bytes)) (k v : Bytes),
      (insertKV m k v).length ≤ m.length + 1 := by
  intro m
  induction m with
  | nil => intro k v; simp [insertKV]
  | cons p rest ih =>
    intro k v
    by_cases hp : p.1 = k
    · simp [insertKV, hp]
    · have := ih k v
      simp [insertKV, hp]
      omega

/-- Every key of the map after insertion is the inserted key or an old key. -/
lemma mem_keys_insertKV :
    ∀ (m : List (Bytes × Bytes)) (k v a : Bytes),
      a ∈ (insertKV m k v).map Prod.fst → a = k ∨ a ∈ m.map Prod.fst := by
  intro m
  induction m with
  | nil =>
    intro k v a h
    simp [insertKV] at h
    exact Or.inl h
  | cons p rest ih =>
    intro k v a h
    by_cases hp : p.1 = k
    · simp [insertKV, hp] at h
      rcases h with h | h
      · exact Or.inl h
      · exact Or.inr (by simp [h])
    · simp [insertKV, hp] at h
      rcases h with h | h
      · exact Or.inr (by simp [h])
      · rcases ih k v a (by simpa using h) with h2 | h2
        · exact Or.inl h2
        · exact Or.inr (by simp [h2])

/-- Insertion preserves distinctness of keys. -/
lemma nodup_keys_insertKV :
    ∀ (m : List (Bytes × Bytes)) (k v : Bytes),
      (m.map Prod.fst).Nodup → ((insertKV m k v).map Prod.fst).Nodup := by
  intro m
  induction m with
  | nil => intro k v _; simp [insertKV]
  | cons p rest ih =>
    intro k v h
    simp only [List.map_cons, List.nodup_cons] at h
    obtain ⟨hp1, hrest⟩ := h
    by_cases hp : p.1 = k
    · simp only [insertKV, if_pos hp, List.map_cons, List.nodup_cons]
      exact ⟨by rw [← hp]; exact hp1, hrest⟩
    · simp only [insertKV, if_neg hp, List.map_cons, List.nodup_cons]
      refine ⟨?_, ih k v hrest⟩
      intro hmem
      rcases mem_keys_insertKV rest k v p.1 hmem with h2 | h2
      · exact hp h2
      · exact hp1 h2

/-- With every record decodable, the collection loop succeeds and computes
the left fold of insertions over the records in response order. -/
lemma decodeKvs_ok_of_valid :
    ∀ (kvs : List KeyValue) (out : List (Bytes × Bytes)),
      (∀ kv ∈ kvs, validUtf8 kv.key = true ∧ validUtf8 kv.value = true) →
      decodeKvs out kvs =
        ExecResult.ok (kvs.foldl (fun m kv => insertKV m kv.key kv.value) out) := by
  intro kvs
  induction kvs with
  | nil => intro out _; simp [decodeKvs]
  | cons kv rest ih =>
    intro out h
    obtain ⟨hk, hv⟩ := h kv (List.mem_cons_self _ _)
    simp only [decodeKvs, from_utf8, hk, if_true, hv, List.foldl_cons]
    exact ih _ (fun kv2 hm => h kv2 (List.mem_cons_of_mem _ hm))

/-- Lookup in the fold of insertions: a key maps to the value of its last
occurrence among the folded records, and otherwise to its binding in the
initial map. -/
lemma lookupKV_foldl :
    ∀ (kvs : List KeyValue) (out : List (Bytes × Bytes)) (k : Bytes),
      lookupKV (kvs.foldl (fun m kv => insertKV m kv.key kv.value) out) k =
        ((kvs.filter fun kv => kv.key == k).getLast?).elim
          (lookupKV out k) (fun kv => some kv.value) := by
  intro kvs
  induction kvs with
  | nil => intro out k; simp
  | cons kv rest ih =>
    intro out k
    by_cases hk : kv.key = k
    · have hb : (kv.key == k) = true := by simp [hk]
      simp only [List.foldl_cons, List.filter_cons, hb, if_true]
      rw [ih, lookup_insertKV]
      cases hfr : (rest.filter fun kv => kv.key == k) with
      | nil => simp [hfr, hk]
      | cons x xs =>
        rw [List.getLast?_cons_cons]
        cases hg : (x :: xs).getLast? with
        | none => simp at hg
        | some y => simp [hg]
    · have hb : (kv.key == k) = false := by simp [hk]
      simp only [List.foldl_cons, List.filter_cons, hb]
      rw [ih, lookup_insertKV]
      simp [hk]

/-- The fold of insertions keeps keys distinct. -/
lemma nodup_keys_foldl :
    ∀ (kvs : List KeyValue) (out : List (Bytes × Bytes)),
      (out.map Prod.fst).Nodup →
      ((kvs.foldl (fun m kv => insertKV m kv.key kv.value) out).map Prod.fst).Nodup := by
  intro kvs
  induction kvs with
  | nil => intro out h; simpa using h
  | cons kv rest ih =>
    intro out h
    simp only [List.foldl_cons]
    exact ih _ (nodup_keys_insertKV out kv.key kv.value h)

/-- The fold of insertions grows the map by at most one entry per record. -/
lemma foldl_length_le :
    ∀ (kvs : List KeyValue) (out : List (Bytes × Bytes)),
      (kvs.foldl (fun m kv => insertKV m kv.key kv.value) out).length ≤
        out.length + kvs.length := by
  intro kvs
  induction kvs with
  | nil => intro out; simp
  | cons kv rest ih =>
    intro out
    simp only [List.foldl_cons, List.length_cons]
    have h1 := ih (insertKV out kv.key kv.value)
    have h2 := insertKV_length_le out kv.key kv.value
    omega

/-! ## Claims -/

/-- C1 (counterexample): with every dial succeeding, `connect` starting
from a fresh network succeeds while opening six connections, not one, and
the kv and watch stubs sit on different channels, so the six stubs do not
share one underlying channel. -/
theorem connect_single_shared_channel_cex :
    EtcdClient.connect dialAllOk 0 = .ok (connectedSix, 6) ∧
    (6 : Nat) ≠ 0 + 1 ∧
    connectedSix.kv_client.channel ≠ connectedSix.watch_client.channel :=
  ⟨rfl, by decide, by decide⟩

/-- C1 (amended): a successful `connect` opens exactly six network
connections (one per per-service stub connect), and each of the six stub
handles of the returned session holds its own fresh channel — in
particular the kv and watch stubs do not share a channel. -/
theorem connect_opens_six_connections (dial : Dial) (n : Nat) (c : EtcdClient) (n' : Nat)
    (h : EtcdClient.connect dial n = .ok (c, n')) :
    n' = n + 6 ∧
    c.auth_client.channel = n ∧
    c.cluster_client.channel = n + 1 ∧
    c.kv_client.channel = n + 2 ∧
    c.lease_client.channel = n + 3 ∧
    c.status_client.channel = n + 4 ∧
    c.watch_client.channel = n + 5 ∧
    c.kv_client.channel ≠ c.watch_client.channel := by
  obtain ⟨-, hc, hn⟩ := connect_ok_elim dial n c n' h
  subst hc
  exact ⟨hn, rfl, rfl, rfl, rfl, rfl, rfl, by simp⟩

/-- C1 (witness): the amended theorem applied to the all-dials-succeed
oracle on a fresh network. -/
theorem connect_opens_six_connections_witness :
    6 = 0 + 6 ∧
    connectedSix.auth_client.channel = 0 ∧
    connectedSix.cluster_client.channel = 0 + 1 ∧
    connectedSix.kv_client.channel = 0 + 2 ∧
    connectedSix.lease_client.channel = 0 + 3 ∧
    connectedSix.status_client.channel = 0 + 4 ∧
    connectedSix.watch_client.channel = 0 + 5 ∧
    connectedSix.kv_client.channel ≠ connectedSix.watch_client.channel :=
  connect_opens_six_connections dialAllOk 0 connectedSix 6 rfl

/-- C5: if any of the per-service stub connects fails, `connect` returns
an error; no session value exists in the error case, so no
partially-constructed session can reach the caller. -/
theorem connect_error_yields_no_session (dial : Dial) (n : Nat)
    (h : ∃ i, i < 6 ∧ ∃ e, dial (n + i) = .error e) :
    ∃ e, EtcdClient.connect dial n = .error e := by
  rcases h with ⟨i, hi, e, he⟩
  cases hc : EtcdClient.connect dial n with
  | error e2 => exact ⟨e2, rfl⟩
  | ok p =>
    obtain ⟨hall, -, -⟩ := connect_ok_elim dial n p.1 p.2 hc
    rw [hall i hi] at he
    exact Except.noConfusion he

/-- C5 (witness): the theorem applied to the oracle whose third dial (the
kv stub's) fails. -/
theorem connect_error_yields_no_session_witness :
    ∃ e, EtcdClient.connect dialFailThird 0 = .error e :=
  connect_error_yields_no_session dialFailThird 0 ⟨2, by decide, ⟨7⟩, rfl⟩

/-- C2 (counterexample): on a server response whose record key is the
byte 255 (not valid UTF-8), `Range::get` panics; it does not return a
`DecodeError` (or any error value) to the caller. -/
theorem get_invalid_bytes_panics_cex :
    Range.get sampleRange badUtf8Server = ExecResult.panic ∧
    (Range.get sampleRange badUtf8Server).isError = false :=
  ⟨rfl, rfl⟩

/-- C2 (amended): for every range read whose server response contains a
key or value byte sequence that is not valid UTF-8, `Range::get` fails the
whole call by panicking (the `.unwrap()` on `from_utf8`); no per-record
skip occurs and no error value is returned. -/
theorem get_panics_on_undecodable (r : Range)
    (kv_range : Nat → RangeRequest → Except GrpcError RangeResponse)
    (resp : RangeResponse)
    (hresp : kv_range r.client.kv_client.channel r.getRequest = .ok resp)
    (hbad : ∃ kv ∈ resp.kvs, validUtf8 kv.key = false ∨ validUtf8 kv.value = false) :
    Range.get r kv_range = ExecResult.panic := by
  simp only [Range.get, hresp]
  exact decodeKvs_panic resp.kvs [] hbad

/-- C2 (witness): the amended theorem applied to the concrete bad-byte
response. -/
theorem get_panics_on_undecodable_witness :
    Range.get sampleRange badUtf8Server = ExecResult.panic :=
  get_panics_on_undecodable sampleRange badUtf8Server badUtf8Response rfl
    ⟨{ key := [255], value := [97] }, by simp [badUtf8Response], Or.inl (by decide)⟩

/-- C3: the outbound request stream created by `watch(key)` is exactly the
one-element sequence holding a create-watch request for that key, with
empty `range_end`, zero `start_revision`, and every other field at its
default; no further request follows. -/
theorem watch_stream_single_create_request (key : Bytes) :
    EtcdClient.watchRequestStream key =
      [{ request_union := some (RequestUnion.CreateRequest
          { key := key, range_end := [], start_revision := 0, progress_notify := false,
            filters := [], prev_kv := false, watch_id := 0, fragment := false }) }] :=
  rfl

/-- C4: the request built by `Range::get` carries the start key's bytes in
`key`; with no end key bound, `range_end` is the (present) empty byte
sequence, and with an end key bound it is that end key's bytes. -/
theorem get_request_key_and_range_end (c : EtcdClient) (s e : Bytes) :
    (Range.getRequest (EtcdClient.range c s none)).key = s ∧
    (Range.getRequest (EtcdClient.range c s none)).range_end = [] ∧
    (Range.getRequest (EtcdClient.range c s (some e))).key = s ∧
    (Range.getRequest (EtcdClient.range c s (some e))).range_end = e :=
  ⟨rfl, rfl, rfl, rfl⟩

/-- C6: on any `Range`, the delete request carries exactly the same `key`
and `range_end` fields as the get request (the consumption of the handle
itself is the Rust-level `self`-by-value signature of `delete`). -/
theorem delete_request_matches_get_request (r : Range) :
    (Range.deleteRequest r).key = (Range.getRequest r).key ∧
    (Range.deleteRequest r).range_end = (Range.getRequest r).range_end :=
  ⟨rfl, rfl⟩

/-- C7: `Range::put` sends a request whose key is the range's start key,
whose value is the given value, and whose `prev_kv` flag is true; on a
successful response it returns unit, surfacing nothing of the response. -/
theorem put_request_fields_and_unit_result (r : Range) (v : Bytes)
    (kv_put : Nat → PutRequest → Except GrpcError PutResponse) :
    (Range.putRequest r v).key = r.start ∧
    (Range.putRequest r v).value = v ∧
    (Range.putRequest r v).prev_kv = true ∧
    (∀ resp, kv_put r.client.kv_client.channel (Range.putRequest r v) = .ok resp →
      Range.put r v kv_put = .ok ()) := by
  refine ⟨rfl, rfl, rfl, ?_⟩
  intro resp h
  simp [Range.put, h]

/-- C7 (witness): the theorem applied to the concrete range "foo", value
"bar", and an always-succeeding put stub. -/
theorem put_request_fields_and_unit_result_witness :
    (Range.putRequest sampleRange [98, 97, 114]).key = sampleRange.start ∧
    (Range.putRequest sampleRange [98, 97, 114]).value = [98, 97, 114] ∧
    (Range.putRequest sampleRange [98, 97, 114]).prev_kv = true ∧
    Range.put sampleRange [98, 97, 114] okPutServer = .ok () := by
  obtain ⟨h1, h2, h3, h4⟩ :=
    put_request_fields_and_unit_result sampleRange [98, 97, 114] okPutServer
  exact ⟨h1, h2, h3, h4 {} rfl⟩

/-- C8: when the server response carries no key-value records, `Range::get`
returns the successful empty mapping, not an error. -/
theorem get_empty_response_ok (r : Range)
    (kv_range : Nat → RangeRequest → Except GrpcError RangeResponse)
    (resp : RangeResponse)
    (hresp : kv_range r.client.kv_client.channel r.getRequest = .ok resp)
    (hempty : resp.kvs = []) :
    Range.get r kv_range = ExecResult.ok [] := by
  simp [Range.get, hresp, hempty, decodeKvs]

/-- C8 (witness): the theorem applied to the concrete range "foo" and a
stub answering with the default (empty) response. -/
theorem get_empty_response_ok_witness :
    Range.get sampleRange emptyServer = ExecResult.ok [] :=
  get_empty_response_ok sampleRange emptyServer {} rfl rfl

/-- C10 (counterexample): a server response carrying the key "a" twice,
the second time with an undecodable value byte, makes `Range::get` panic;
no mapping is returned at all, refuting the unconditional claim. -/
theorem get_duplicate_keys_cex :
    (dupBadResponse.kvs.map KeyValue.key).count [97] = 2 ∧
    Range.get sampleRange dupBadServer = ExecResult.panic ∧
    (Range.get sampleRange dupBadServer).isOk = false :=
  ⟨by decide, rfl, rfl⟩

/-- C10 (amended): provided every returned key and value decodes as text,
`Range::get` returns a mapping with pairwise-distinct keys in which each
key is bound to the value of its last occurrence in the response's record
order, and with no more entries than the response has records. -/
theorem get_dedup_last_occurrence (r : Range)
    (kv_range : Nat → RangeRequest → Except GrpcError RangeResponse)
    (resp : RangeResponse)
    (hresp : kv_range r.client.kv_client.channel r.getRequest = .ok resp)
    (hvalid : ∀ kv ∈ resp.kvs, validUtf8 kv.key = true ∧ validUtf8 kv.value = true) :
    ∃ m, Range.get r kv_range = ExecResult.ok m ∧
      (m.map Prod.fst).Nodup ∧
      (∀ k, lookupKV m k =
        ((resp.kvs.filter fun kv => kv.key == k).getLast?).map KeyValue.value) ∧
      m.length ≤ resp.kvs.length := by
  refine ⟨resp.kvs.foldl (fun m kv => insertKV m kv.key kv.value) [], ?_, ?_, ?_, ?_⟩
  · simp only [Range.get, hresp]
    exact decodeKvs_ok_of_valid resp.kvs [] hvalid
  · exact nodup_keys_foldl resp.kvs [] (by simp)
  · intro k
    rw [lookupKV_foldl]
    cases hg : (resp.kvs.filter fun kv => kv.key == k).getLast? with
    | none => simp [lookupKV]
    | some y => simp
  · simpa using foldl_length_le resp.kvs []

/-- C10 (witness): the amended theorem applied to a concrete response
binding "a" to "x", then "a" to "y", then "b" to "z". -/
theorem get_dedup_last_occurrence_witness :
    ∃ m, Range.get sampleRange dupValidServer = ExecResult.ok m ∧
      (m.map Prod.fst).Nodup ∧
      (∀ k, lookupKV m k =
        ((dupValidResponse.kvs.filter fun kv => kv.key == k).getLast?).map KeyValue.value) ∧
      m.length ≤ dupValidResponse.kvs.length :=
  get_dedup_last_occurrence sampleRange dupValidServer dupValidResponse rfl (by decide)

/-- C9: `range` and `cluster` are pure handle constructors: the handle
holds exactly the given scope parameters and the borrowed session, the
session is unchanged (so both can be called again, arbitrarily often),
and no oracle (network) argument is involved. -/
theorem range_and_cluster_are_pure_constructors (c : EtcdClient) (s s2 : Bytes)
    (e e2 : Option Bytes) :
    (EtcdClient.range c s e).start = s ∧
    (EtcdClient.range c s e).end_ = e ∧
    (EtcdClient.range c s e).client = c ∧
    (EtcdClient.cluster c).client = c ∧
    ((EtcdClient.range c s e).client.range s2 e2).client = c ∧
    ((EtcdClient.cluster c).client.cluster).client = c :=
  ⟨rfl, rfl, rfl, rfl, rfl, rfl⟩

end Etcd3
